import Mathlib

set_option maxRecDepth 80000
set_option maxHeartbeats 16000000

/-!
Verification of the SABER bias-correction engine (`saber/calibrate.py`).

Modelling conventions used throughout this development:

* Machine floats are modelled by exact rationals (`ℚ`).  Lean's total field
  division (`x / 0 = 0`) replaces IEEE division; wherever the sign of an IEEE
  quotient matters (the scalar-curve construction) the IEEE value class is
  recorded separately by `divF`.
* A pandas time series (datetime index, one value column) is a `List (Date × ℚ)`.
  Missing values are modelled as absent rows: the code normalises its inputs
  with `dropna()`, so a series is represented post-`dropna` and `dropna`
  itself is the identity in the model.
* The transcendental functions reaching the engine (`np.log` inside the Gumbel
  formula, the square root inside `statistics.stdev`) are abstracted as
  function parameters `rlog rsqrt : ℚ → ℚ`; every theorem below holds for all
  choices of these parameters, in particular for the real log / sqrt.
* Python exceptions are modelled with `Except String`; an uncaught exception
  is an `Except.error`.
-/

/-- Calendar date (year, month, day), the datetime index of the pandas frames. -/
structure Date where
  y : ℕ
  m : ℕ
  d : ℕ
deriving DecidableEq

/-- Chronological sort key of a date. -/
def dateKey (t : Date) : ℕ := t.y * 10000 + t.m * 100 + t.d

/-- A time-indexed series of flows: pandas DataFrame with a datetime index and
one value column. -/
abbrev Series := List (Date × ℚ)

/-- The values column of a series (`df.values.flatten()`). -/
def seriesValues (s : Series) : List ℚ := s.map (·.2)

/-- Rows of a series restricted to one calendar month
(`df[df.index.month == m]`, followed by the no-op `dropna`). -/
def monthFilter (s : Series) (m : ℕ) : Series := s.filter (fun e => e.1.m = m)

/-- A row of a corrected-series DataFrame: timestamp, corrected flow (`q_mod`),
uncorrected simulated flow (`q_sim`) and the optional metadata columns
(`scalars`, `p_exceed`). -/
structure CRow where
  date : Date
  qmod : ℚ
  qsim : ℚ
  meta : Option (ℚ × ℚ)
deriving DecidableEq

/-- A single-column DataFrame keyed by exceedance probability: the shape of a
flow duration curve (`p_exceed` index plus one named column). -/
structure QDF where
  index : List ℚ
  colName : String
  values : List ℚ
deriving DecidableEq

/-- A pandas Series obtained by selecting one column of a `QDF`
(index retained, no column name needed afterwards). -/
structure QSeries where
  index : List ℚ
  values : List ℚ
deriving DecidableEq

/-- Column selection `df[c]`: pandas looks the name up among the columns only
(never the index) and raises `KeyError` when absent. -/
def QDF.get (df : QDF) (c : String) : Except String (List ℚ) :=
  if c = df.colName then Except.ok df.values else Except.error ("KeyError: " ++ c)

/-- IEEE value class of a float quotient `a / b`. -/
inductive FloatVal where
  | num (q : ℚ)
  | posInf
  | negInf
  | nan
deriving DecidableEq

/-- The IEEE class of `a / b` (numpy division semantics). -/
def divF (a b : ℚ) : FloatVal :=
  if b ≠ 0 then FloatVal.num (a / b)
  else if 0 < a then FloatVal.posInf
  else if a < 0 then FloatVal.negInf
  else FloatVal.nan

def exceptIsErr : Except ε α → Bool
  | Except.error _ => true
  | Except.ok _ => false

def exceptIsOk : Except ε α → Bool
  | Except.error _ => false
  | Except.ok _ => true

instance [DecidableEq ε] [DecidableEq α] : DecidableEq (Except ε α) := fun x y =>
  match x, y with
  | Except.error a, Except.error b =>
      if h : a = b then Decidable.isTrue (by subst h; rfl)
      else Decidable.isFalse (fun hc => h (by injection hc))
  | Except.error _, Except.ok _ => Decidable.isFalse (fun hc => Except.noConfusion hc)
  | Except.ok _, Except.error _ => Decidable.isFalse (fun hc => Except.noConfusion hc)
  | Except.ok a, Except.ok b =>
      if h : a = b then Decidable.isTrue (by subst h; rfl)
      else Decidable.isFalse (fun hc => h (by injection hc))

/-- Modelled from the spec: the module-level column-name constants imported
from `saber.io` (not under `src/`); the spec calls them the simulated /
observed / modeled flow-column identifiers.  Their exact strings are
immaterial to every claim; only their distinctness is used. -/
def q_sim : String := "Qsim"

/-- Modelled from the spec: observed flow column identifier from `saber.io`. -/
def q_obs : String := "Qobs"

/-- Modelled from the spec: corrected (modeled) flow column identifier from
`saber.io`. -/
def q_mod : String := "Qmod"

/-- Arithmetic mean of a list (`np.mean` / `statistics.mean`). -/
def listMean (l : List ℚ) : ℚ := l.sum / l.length

/-- Maximum of a list (`np.max`).  `np.max([])` raises the zero-size
reduction `ValueError`; the model's caller (`make_interpolator`) raises that
error before computing the fill value, so the `[]` default here is
unreachable from the modelled code paths. -/
def listMax (l : List ℚ) : ℚ :=
  match l with
  | [] => 0
  | h :: t => t.foldl max h

/-- Minimum of a list (`np.min`).  `np.min([])` raises the zero-size
reduction `ValueError`; the model's caller (`make_interpolator`) raises that
error before computing the fill value, so the `[]` default here is
unreachable from the modelled code paths. -/
def listMin (l : List ℚ) : ℚ :=
  match l with
  | [] => 0
  | h :: t => t.foldl min h

/-- Population variance about a given centre (`scipy.stats.zscore` uses
`ddof = 0`). -/
def popVar (l : List ℚ) (mu : ℚ) : ℚ :=
  (l.map (fun x => (x - mu) ^ 2)).sum / l.length

/-- Sample variance about a given centre (`statistics.stdev(data, xbar)`
squares to this, with `ddof = 1`). -/
def sampleVar (l : List ℚ) (mu : ℚ) : ℚ :=
  (l.map (fun x => (x - mu) ^ 2)).sum / ((l.length : ℚ) - 1)

/-- `np.linspace(100, 0, steps)`: `steps` equally spaced points descending
from 100 to 0. -/
def linspaceDesc (steps : ℕ) : List ℚ :=
  (List.range steps).map (fun i => 100 - 100 * (i : ℚ) / ((steps : ℚ) - 1))

/-- Linear interpolation into a (sorted) list at fractional position `pos`:
the core of numpy's default percentile method. -/
def interpAt (s : List ℚ) (pos : ℚ) : ℚ :=
  if (Int.floor pos).toNat + 1 < s.length then
    s.getD (Int.floor pos).toNat 0 +
      (pos - ((Int.floor pos).toNat : ℚ)) *
        (s.getD ((Int.floor pos).toNat + 1) 0 - s.getD (Int.floor pos).toNat 0)
  else
    s.getD (s.length - 1) 0

/-- `np.percentile(xs, q)` with the default linear interpolation method:
sort ascending and interpolate at virtual index `q/100 * (n-1)`. -/
def percentileLinear (xs : List ℚ) (q : ℚ) : ℚ :=
  interpAt (List.insertionSort (· ≤ ·) xs) (q / 100 * ((xs.length : ℚ) - 1))

/-- `calc_fdc`: percentile values of the sample at exceedance probabilities
`linspace(100, 0, steps)`, returned as a DataFrame indexed by `p_exceed`.
Note the source computes `np.nanpercentile(flows, exceed_prob)`, i.e. the
entry keyed by probability `p` is the `p`-th percentile of the sample
(`nanpercentile` equals `percentile` here because missing values are absent
rows in the model). -/
def calc_fdc (flows : List ℚ) (steps : ℕ) (col_name : String) : QDF :=
  { index := linspaceDesc steps
    colName := col_name
    values := (linspaceDesc steps).map (percentileLinear flows) }

/-- Keep-decision of `calc_sfdc` for one scalar entry: the source computes
`np.divide(sim, obs)`, then `replace(np.inf, np.nan)` (positive infinity
only) and `dropna()`.  An entry therefore survives exactly when its IEEE
class after the `+inf → NaN` replacement is not `NaN`. -/
def sfdcKeepVal (a b : ℚ) : Bool :=
  match divF a b with
  | FloatVal.num _ => true
  | FloatVal.negInf => true
  | FloatVal.posInf => false
  | FloatVal.nan => false

/-- `calc_sfdc`: elementwise quotient of the two curves, indexed by the
simulated curve's index, with `+inf` and `NaN` entries dropped
(`replace(np.inf, np.nan)` then `dropna`).  A surviving `-inf` entry
(negative simulated quantile over a zero observed quantile) has no rational
value; it is represented by the total division's `a / 0 = 0` and its IEEE
class is recoverable through `divF`. -/
def calc_sfdc (sim_fdc obs_fdc : QSeries) : QDF :=
  let pairs := sim_fdc.index.zip (sim_fdc.values.zip obs_fdc.values)
  let kept := pairs.filter (fun t => sfdcKeepVal t.2.1 t.2.2)
  { index := kept.map (·.1)
    colName := "scalars"
    values := kept.map (fun t => t.2.1 / t.2.2) }

/-- `_drop_outliers_by_zscore`: keep the rows of the frame whose z-score over
the full sample satisfies `|z| < threshold` (strict, `ddof = 0`).  The float
condition `|x - μ| / σ < t` is expressed by the equivalent rational
inequality `0 < t ∧ (x - μ)² < t² · σ²`, avoiding the square root; when the
variance is zero the z-scores are NaN and every comparison is false, which
the squared form reproduces.  At a hairline boundary the program's float
z-score may round to the other side of the threshold, so the exact-rational
boundary decision is asserted of the program only at samples whose float
computation is exact (see `zsample`). -/
def drop_outliers_by_zscore (df : Series) (threshold : ℚ) : Series :=
  let vals := seriesValues df
  let mu := listMean vals
  let v := popVar vals mu
  df.filter (fun e => decide (0 < threshold) && decide ((e.2 - mu) ^ 2 < threshold ^ 2 * v))

/-- A constructed `scipy.interpolate.interp1d`: the anchor points sorted by
abscissa (`interp1d` sorts with a stable argsort), together with the
interpolation kind and extrapolation behaviour chosen by
`_make_interpolator`. -/
inductive Interp where
  /-- `kind='nearest'`, `fill_value='extrapolate'`. -/
  | nearestN (pts : List (ℚ × ℚ))
  /-- default linear kind, `fill_value='extrapolate'`. -/
  | linearE (pts : List (ℚ × ℚ))
  /-- default linear kind, `bounds_error=False`, constant fill value. -/
  | linearF (pts : List (ℚ × ℚ)) (c : ℚ)
deriving DecidableEq

/-- Nearest-neighbour lookup over points sorted by abscissa: scipy picks the
first anchor whose midpoint boundary is not exceeded (`searchsorted` on the
midpoints with `side='left'`, ties to the lower anchor), clamping to the end
anchors outside the domain. -/
def evalNearest : List (ℚ × ℚ) → ℚ → ℚ
  | [], _ => 0
  | [p], _ => p.2
  | p :: q :: rest, x => if x ≤ (p.1 + q.1) / 2 then p.2 else evalNearest (q :: rest) x

/-- Linear interpolation over points sorted by abscissa, numpy/scipy style:
`searchsorted` index clipped to `[1, n-1]`, then the straight line through
the surrounding anchors (which extrapolates linearly beyond the ends). -/
def evalLinearCore (pts : List (ℚ × ℚ)) (x : ℚ) : ℚ :=
  let cnt := (pts.filter (fun p => decide (p.1 < x))).length
  let i := max 1 (min (pts.length - 1) cnt)
  let lo := pts.getD (i - 1) (0, 0)
  let hi := pts.getD i (0, 0)
  lo.2 + (x - lo.1) * ((hi.2 - lo.2) / (hi.1 - lo.1))

/-- First abscissa of the sorted anchors (`self.x[0]`). -/
def ptsFirst (pts : List (ℚ × ℚ)) : ℚ := (pts.head?.map (·.1)).getD 0

/-- Last abscissa of the sorted anchors (`self.x[-1]`). -/
def ptsLast (pts : List (ℚ × ℚ)) : ℚ := ((pts.getLast?.map (·.1))).getD 0

/-- Evaluate a constructed interpolator at a query point. -/
def Interp.eval : Interp → ℚ → ℚ
  | Interp.nearestN pts, x => evalNearest pts x
  | Interp.linearE pts, x => evalLinearCore pts x
  | Interp.linearF pts c, x =>
      if x < ptsFirst pts ∨ ptsLast pts < x then c else evalLinearCore pts x

/-- `_make_interpolator`: dispatch on the extrapolation policy string, raising
`ValueError` for `const` without a fill value and for unrecognised policies.
All branches build an `interp1d` over the anchor points sorted (stably) by
abscissa.  The `interp1d` constructor enforces its minimum-length check —
at least one anchor for `kind='nearest'`, at least two for the default
linear kind — and in the `max`/`min` branches the fill value
`np.max(y)`/`np.min(y)` is computed first, so on empty data those branches
raise the zero-size reduction `ValueError` before `interp1d` is reached
(`np.mean([])` in the `average` branch only warns and returns NaN, so there
the length error comes from `interp1d`). -/
def make_interpolator (x y : List ℚ) (extrap : String) (fill_value : Option ℚ) :
    Except String Interp :=
  let pts := List.insertionSort (fun a b : ℚ × ℚ => a.1 ≤ b.1) (x.zip y)
  if extrap = "nearest" then
    if x.length < 1 then
      Except.error "ValueError: x and y arrays must have at least 1 entries"
    else Except.ok (Interp.nearestN pts)
  else if extrap = "const" then
    match fill_value with
    | none => Except.error "ValueError: Must provide the const kwarg when extrap_method=const"
    | some c =>
      if x.length < 2 then
        Except.error "ValueError: x and y arrays must have at least 2 entries"
      else Except.ok (Interp.linearF pts c)
  else if extrap = "linear" then
    if x.length < 2 then
      Except.error "ValueError: x and y arrays must have at least 2 entries"
    else Except.ok (Interp.linearE pts)
  else if extrap = "average" then
    if x.length < 2 then
      Except.error "ValueError: x and y arrays must have at least 2 entries"
    else Except.ok (Interp.linearF pts (listMean y))
  else if extrap = "max" ∨ extrap = "maximum" then
    if y.length = 0 then
      Except.error "ValueError: zero-size array to reduction operation maximum which has no identity"
    else if x.length < 2 then
      Except.error "ValueError: x and y arrays must have at least 2 entries"
    else Except.ok (Interp.linearF pts (listMax y))
  else if extrap = "min" ∨ extrap = "minimum" then
    if y.length = 0 then
      Except.error "ValueError: zero-size array to reduction operation minimum which has no identity"
    else if x.length < 2 then
      Except.error "ValueError: x and y arrays must have at least 2 entries"
    else Except.ok (Interp.linearF pts (listMin y))
  else
    Except.error "ValueError: Invalid extrapolation method provided"

/-- Clamp of the Gumbel replacement: `outlier_vals[outlier_vals < 0] = 0`
sets every negative replaced entry to zero. -/
def clampNonneg (v : ℚ) : ℚ := if v < 0 then 0 else v

/-- The replacement value of `_fit_extreme_values_to_gumbel`, transcribed from
`-np.log(-np.log(1 - (1 / (1 / (1 - p/100))))) * std * .7797 + xbar - .45*std`
with the float `np.log` abstracted as `rlog`. -/
def gumbel_point (rlog : ℚ → ℚ) (std xbar p : ℚ) : ℚ :=
  -(rlog (-(rlog (1 - 1 / (1 / (1 - p / 100)))))) * std * (0.7797 : ℚ)
    + xbar - (0.45 : ℚ) * std

/-- The `q` values of the rows of `all_values` whose exceedance probability
lies inside the trusted range (`mid_vals`). -/
def gumbel_mid_vals (q_adjust p_exceed : List ℚ) (lo hi : ℚ) : List ℚ :=
  ((q_adjust.zip p_exceed).filter
    (fun t => decide (lo ≤ t.2) && decide (t.2 ≤ hi))).map (·.1)

/-- `_fit_extreme_values_to_gumbel`: mean and sample standard deviation are
taken over the rows inside `fit_range`; every row outside the range has its
corrected value replaced by the closed-form Gumbel estimate, clamped at
zero; rows inside the range pass through unchanged. -/
def fit_extreme_values_to_gumbel (rlog rsqrt : ℚ → ℚ)
    (q_adjust p_exceed : List ℚ) (fit_range : ℚ × ℚ) : List ℚ :=
  (q_adjust.zip p_exceed).map (fun t =>
    if fit_range.1 ≤ t.2 ∧ t.2 ≤ fit_range.2 then t.1
    else clampNonneg (gumbel_point rlog
      (rsqrt (sampleVar (gumbel_mid_vals q_adjust p_exceed fit_range.1 fit_range.2)
        (listMean (gumbel_mid_vals q_adjust p_exceed fit_range.1 fit_range.2))))
      (listMean (gumbel_mid_vals q_adjust p_exceed fit_range.1 fit_range.2)) t.2))

/-- The keyword options of `sfdc_mapping` other than `fix_seasonally`
(which is threaded separately because the seasonal branch recurses with
`fix_seasonally=False`).  Field order follows the source signature. -/
structure SaberOpts where
  empty_months : String
  drop_outliers : Bool
  outlier_threshold : ℚ
  filter_scalar_fdc : Bool
  filter_range : ℚ × ℚ
  extrapolate : String
  fill_value : Option ℚ
  fit_gumbel : Bool
  fit_range : ℚ × ℚ
  metadata : Bool
deriving DecidableEq

/-- `scalar_fdc[scalar_fdc['p_exceed'].between(lo, hi)]`: restrict the rows of
a frame by an auxiliary column being inside the (inclusive) range.  In the
source this line is dead on every input because the column lookup that feeds
it raises `KeyError` first. -/
def qdfBetween (df : QDF) (pcol : List ℚ) (r : ℚ × ℚ) : QDF :=
  { index := ((df.index.zip pcol).filter
      (fun t => decide (r.1 ≤ t.2) && decide (t.2 ≤ r.2))).map (·.1)
    colName := df.colName
    values := ((df.values.zip pcol).filter
      (fun t => decide (r.1 ≤ t.2) && decide (t.2 ≤ r.2))).map (·.1) }

/-- The response DataFrame of `sfdc_mapping`: index `sim_flow_b.index`,
columns `(q_mod, q_sim)` filled positionally, plus the `scalars` and
`p_exceed` columns when `metadata` is set. -/
def mkResponse (sb : Series) (qmod scalars pex : List ℚ) (metadata : Bool) :
    List CRow :=
  (sb.zip (qmod.zip (scalars.zip pex))).map (fun t =>
    { date := t.1.1
      qmod := t.2.1
      qsim := t.1.2
      meta := if metadata then some (t.2.2.1, t.2.2.2) else none })

/-- Tail of the non-seasonal `sfdc_mapping` body from the construction of the
two interpolators onwards: convert the flows at B to exceedance
probabilities, look up the scalars, divide, optionally refit the tails to
the Gumbel estimate, and assemble the response frame. -/
def sfdc_apply (rlog rsqrt : ℚ → ℚ) (sb : Series) (sim_fdc_b : QDF)
    (scalar_fdc : QDF) (o : SaberOpts) : Except String (List CRow) :=
  match make_interpolator sim_fdc_b.values sim_fdc_b.index o.extrapolate o.fill_value with
  | Except.error e => Except.error e
  | Except.ok flow_to_percent =>
    match make_interpolator scalar_fdc.index scalar_fdc.values o.extrapolate o.fill_value with
    | Except.error e => Except.error e
    | Except.ok percent_to_scalar =>
      let qb_original := seriesValues sb
      let p_exceed := qb_original.map flow_to_percent.eval
      let scalars := p_exceed.map percent_to_scalar.eval
      let qb_adjusted := List.zipWith (fun q s => q / s) qb_original scalars
      let qb_final :=
        if o.fit_gumbel then
          fit_extreme_values_to_gumbel rlog rsqrt qb_adjusted p_exceed o.fit_range
        else qb_adjusted
      Except.ok (mkResponse sb qb_final scalars p_exceed o.metadata)

/-- One FDC of the non-seasonal body: with `drop_outliers` the z-score filter
is applied to the series before `calc_fdc`, otherwise the raw series is used
(the `if drop_outliers:` branch of the source computes all three curves this
way). -/
def fdcOf (dro : Bool) (thr : ℚ) (s : Series) (col : String) : QDF :=
  if dro then calc_fdc (seriesValues (drop_outliers_by_zscore s thr)) 201 col
  else calc_fdc (seriesValues s) 201 col

/-- The `scalar_fdc` local of the non-seasonal body:
`calc_sfdc(sim_fdc_a[q_sim], obs_fdc_a[q_obs])`, with the two column values
already extracted by the subscripts. -/
def scalar_fdc_of (dro : Bool) (thr : ℚ) (sim_flow_a obs_flow_a : Series)
    (simCol obsCol : List ℚ) : QDF :=
  calc_sfdc ⟨(fdcOf dro thr sim_flow_a q_sim).index, simCol⟩
            ⟨(fdcOf dro thr obs_flow_a q_obs).index, obsCol⟩

/-- The non-seasonal body after both column subscripts at A have succeeded:
optionally filter the scalar curve — the filtering subscript
`scalar_fdc['p_exceed']` raises `KeyError` because the probabilities are the
frame's index and its only column is `scalars` — then apply the curves to B. -/
def sfdc_tail (rlog rsqrt : ℚ → ℚ) (sim_flow_a obs_flow_a sb : Series)
    (o : SaberOpts) (simCol obsCol : List ℚ) : Except String (List CRow) :=
  if o.filter_scalar_fdc then
    match QDF.get (scalar_fdc_of o.drop_outliers o.outlier_threshold
        sim_flow_a obs_flow_a simCol obsCol) "p_exceed" with
    | Except.error e => Except.error e
    | Except.ok pcol =>
        sfdc_apply rlog rsqrt sb (fdcOf o.drop_outliers o.outlier_threshold sb q_sim)
          (qdfBetween (scalar_fdc_of o.drop_outliers o.outlier_threshold
            sim_flow_a obs_flow_a simCol obsCol) pcol o.filter_range) o
  else
    sfdc_apply rlog rsqrt sb (fdcOf o.drop_outliers o.outlier_threshold sb q_sim)
      (scalar_fdc_of o.drop_outliers o.outlier_threshold
        sim_flow_a obs_flow_a simCol obsCol) o

/-- The non-seasonal body of `sfdc_mapping` (everything after the
`if fix_seasonally:` block): compute the three FDCs (dropping outliers
first when requested), build the scalar curve at A, optionally filter it,
then apply the curves to B.  A missing `sim_flow_b` (`None`) raises
`TypeError` at its first use. -/
def sfdc_ns (rlog rsqrt : ℚ → ℚ) (sim_flow_a obs_flow_a : Series)
    (sim_flow_b : Option Series) (o : SaberOpts) : Except String (List CRow) :=
  match sim_flow_b with
  | none => Except.error "TypeError: NoneType object is not subscriptable"
  | some sb =>
    match QDF.get (fdcOf o.drop_outliers o.outlier_threshold sim_flow_a q_sim) q_sim with
    | Except.error e => Except.error e
    | Except.ok simCol =>
      match QDF.get (fdcOf o.drop_outliers o.outlier_threshold obs_flow_a q_obs) q_obs with
      | Except.error e => Except.error e
      | Except.ok obsCol =>
        sfdc_tail rlog rsqrt sim_flow_a obs_flow_a sb o simCol obsCol

/-- One iteration of the seasonal loop for month `m`: filter all three series
to the month and recurse with `fix_seasonally=False` (the recursive call
omits `metadata`, so the sub-call always uses the default `False`).
`sim_flow_b[...]` on a `None` target raises `TypeError` here. -/
def month_block (rlog rsqrt : ℚ → ℚ) (sim_flow_a obs_flow_a : Series)
    (sim_flow_b : Option Series) (o : SaberOpts) (m : ℕ) : Except String (List CRow) :=
  match sim_flow_b with
  | none => Except.error "TypeError: NoneType object is not subscriptable"
  | some sbf =>
      sfdc_ns rlog rsqrt (monthFilter sim_flow_a m) (monthFilter obs_flow_a m)
        (some (monthFilter sbf m)) { o with metadata := false }

/-- The sorted unique months of the simulated index
(`sorted(set(sim_flow_a.index.strftime('%m')))`). -/
def sortedUniqueMonths (s : Series) : List ℕ :=
  List.insertionSort (· ≤ ·) (s.map (fun e => e.1.m)).dedup

/-- Chronological sort of corrected rows (`.sort_index()`). -/
def sortRows (rows : List CRow) : List CRow :=
  List.insertionSort (fun a b : CRow => dateKey a.date ≤ dateKey b.date) rows

/-- The seasonal loop of `sfdc_mapping`: months with no observed data are
skipped under `empty_months='skip'` and raise `ValueError` under any other
policy value; each processed month contributes the frame of its recursive
non-seasonal call, in month order. -/
def seasonal_loop (rlog rsqrt : ℚ → ℚ) (sim_flow_a obs_flow_a : Series)
    (sim_flow_b : Option Series) (o : SaberOpts) :
    List ℕ → Except String (List (List CRow))
  | [] => Except.ok []
  | m :: ms =>
    if monthFilter obs_flow_a m = [] then
      if o.empty_months = "skip" then
        seasonal_loop rlog rsqrt sim_flow_a obs_flow_a sim_flow_b o ms
      else
        Except.error "ValueError: Invalid value for argument empty_months"
    else
      match month_block rlog rsqrt sim_flow_a obs_flow_a sim_flow_b o m with
      | Except.error e => Except.error e
      | Except.ok rows =>
        match seasonal_loop rlog rsqrt sim_flow_a obs_flow_a sim_flow_b o ms with
        | Except.error e => Except.error e
        | Except.ok rest => Except.ok (rows :: rest)

/-- `sfdc_mapping`: seasonal mode decomposes into the monthly sub-problems and
concatenates the results sorted chronologically (`pd.concat` on an empty
list of frames raises `ValueError`); non-seasonal mode runs the body
directly. -/
def sfdc_mapping (rlog rsqrt : ℚ → ℚ) (sim_flow_a obs_flow_a : Series)
    (sim_flow_b : Option Series) (fix_seasonally : Bool) (o : SaberOpts) :
    Except String (List CRow) :=
  if fix_seasonally then
    match seasonal_loop rlog rsqrt sim_flow_a obs_flow_a sim_flow_b o
        (sortedUniqueMonths sim_flow_a) with
    | Except.error e => Except.error e
    | Except.ok lists =>
      if lists.isEmpty then Except.error "ValueError: No objects to concatenate"
      else Except.ok (sortRows lists.flatten)
  else
    sfdc_ns rlog rsqrt sim_flow_a obs_flow_a sim_flow_b o

/-- One month of the `fdc_mapping` loop, returning the dates and corrected
values appended for that month: both interpolators use the default
`nearest` policy (simulated flow → probability via the simulated FDC,
probability → observed flow via the observed FDC). -/
def fdc_month (sim_df obs_df : Series) (m : ℕ) :
    Except String (List Date × List ℚ) :=
  let month_sim := monthFilter sim_df m
  let month_obs := monthFilter obs_df m
  let month_sim_fdc := calc_fdc (seriesValues month_sim) 201 "Q"
  let month_obs_fdc := calc_fdc (seriesValues month_obs) 201 "Q"
  match make_interpolator month_sim_fdc.values month_sim_fdc.index "nearest" none with
  | Except.error e => Except.error e
  | Except.ok to_prob =>
    match make_interpolator month_obs_fdc.index month_obs_fdc.values "nearest" none with
    | Except.error e => Except.error e
    | Except.ok to_flow =>
      Except.ok (month_sim.map (·.1),
        month_sim.map (fun e => to_flow.eval (to_prob.eval e.2)))

/-- The month loop of `fdc_mapping`, accumulating `dates` and `values` in
month order. -/
def fdc_mapping_loop (sim_df obs_df : Series) :
    List ℕ → Except String (List Date × List ℚ)
  | [] => Except.ok ([], [])
  | m :: ms =>
    match fdc_month sim_df obs_df m with
    | Except.error e => Except.error e
    | Except.ok dv =>
      match fdc_mapping_loop sim_df obs_df ms with
      | Except.error e => Except.error e
      | Except.ok rest => Except.ok (dv.1 ++ rest.1, dv.2 ++ rest.2)

/-- `fdc_mapping`: per-month quantile mapping.  The final frame is built with
index `dates` (month-grouped order), the `q_mod` column aligned with
`dates`, and the `q_sim` column filled positionally from the *chronological*
input order (`sim_df.values.flatten()`), then sorted by index. -/
def fdc_mapping (sim_df obs_df : Series) : Except String (List CRow) :=
  match fdc_mapping_loop sim_df obs_df (sortedUniqueMonths sim_df) with
  | Except.error e => Except.error e
  | Except.ok dv =>
    Except.ok (sortRows ((dv.1.zip (dv.2.zip (seriesValues sim_df))).map (fun t =>
      { date := t.1, qmod := t.2.1, qsim := t.2.2, meta := none })))

/-- The keyword arguments `map_saber` passes to `sfdc_mapping`
(`drop_outliers=True, outlier_threshold=3, fit_gumbel=True, fit_range=(5,95)`,
everything else at its default). -/
def mapSaberOpts : SaberOpts :=
  { empty_months := "skip", drop_outliers := true, outlier_threshold := 3,
    filter_scalar_fdc := false, filter_range := (0, 80),
    extrapolate := "nearest", fill_value := none,
    fit_gumbel := true, fit_range := (5, 95), metadata := false }

/-- `map_saber` for one assignment record.  The file-system and dataset reads
are abstracted as oracles that may fail (`loadObs`, `loadSim`, `save`); the
whole body is wrapped in `try/except Exception`, so any failure yields
`None` and no exception ever reaches the caller.  A missing assigned gauge
id returns `None` before any loading. -/
def map_saber (rlog rsqrt : ℚ → ℚ) (mid asgn_mid : String) (asgn_gid : Option String)
    (loadObs : String → Except String Series)
    (loadSim : String → Except String Series)
    (save : List CRow → Except String Unit) : Option (List CRow) :=
  match asgn_gid with
  | none => none
  | some gid =>
    match loadObs gid with
    | Except.error _ => none
    | Except.ok obs_df =>
      match loadSim mid with
      | Except.error _ => none
      | Except.ok sim_a =>
        if asgn_mid = mid then
          match fdc_mapping sim_a obs_df with
          | Except.error _ => none
          | Except.ok corrected_df =>
            match save corrected_df with
            | Except.error _ => none
            | Except.ok _ => some corrected_df
        else
          match loadSim asgn_mid with
          | Except.error _ => none
          | Except.ok sim_b =>
            match sfdc_mapping rlog rsqrt sim_b obs_df (some sim_a) true mapSaberOpts with
            | Except.error _ => none
            | Except.ok corrected_df =>
              match save corrected_df with
              | Except.error _ => none
              | Except.ok _ => some corrected_df

/-- Boolean check that adjacent list entries satisfy `p`, used to let `decide`
evaluate `Chain'` facts about concrete lists. -/
def pairwiseAdj (p : α → α → Bool) : List α → Bool
  | [] => true
  | [_] => true
  | a :: b :: t => p a b && pairwiseAdj p (b :: t)

/-- Sample with nine zeros and a single ten: the mean is 1, the population
variance is 9, the standard deviation is 3, and the z-score of the final row
is exactly 3.  Every quantity the filter's comparison depends on (mean 1,
deviations -1 and 9, variance 9, standard deviation 3, z-score 3) is exactly
representable in binary64, so the floating-point program computes the same
z-scores as exact rational arithmetic on this sample. -/
def zsample : Series :=
  [(⟨2000, 1, 1⟩, 0), (⟨2000, 1, 2⟩, 0), (⟨2000, 1, 3⟩, 0), (⟨2000, 1, 4⟩, 0),
   (⟨2000, 1, 5⟩, 0), (⟨2000, 1, 6⟩, 0), (⟨2000, 1, 7⟩, 0), (⟨2000, 1, 8⟩, 0),
   (⟨2000, 1, 9⟩, 0), (⟨2000, 1, 10⟩, 10)]

/-- Shared trivial stand-ins for the abstracted float transcendentals,
used when instantiating theorems on concrete inputs. -/
def rzero : ℚ → ℚ := fun _ => 0

/-- One-month simulated series for the seasonal counterexample. -/
def simSeasonal : Series := [(⟨2000, 1, 1⟩, 1)]

/-- Observed series covering the same single month. -/
def obsSeasonal : Series := [(⟨2000, 1, 5⟩, 3)]

/-- Two-month simulated series whose second month has no observed data. -/
def simSeasonalW : Series := [(⟨2000, 1, 1⟩, 1), (⟨2000, 2, 1⟩, 2)]

/-- Simulated series spanning two years, so that the month-grouped ordering
(both Januaries first, then February) differs from the chronological input
order. -/
def simMultiYear : Series := [(⟨2000, 1, 1⟩, 10), (⟨2000, 2, 1⟩, 20), (⟨2001, 1, 1⟩, 30)]

/-- Closed form of `linspaceDesc 201`: the probability grid `100 - k/2`. -/
def pGrid : List ℚ := (List.range 201).map (fun (k : ℕ) => 100 - (k : ℚ) / 2)

/-- Closed form of the percentile curve of the January flows `[10, 30]` of
`simMultiYear` on the grid `pGrid`: `30 - k/10`. -/
def janVals : List ℚ := (List.range 201).map (fun (k : ℕ) => 30 - (k : ℚ) / 10)

/-- Closed form of the percentile curve of the February flow `[20]` of
`simMultiYear`: constant `20`. -/
def febVals : List ℚ := List.replicate 201 (20 : ℚ)

/-- The anchors of the January flow-to-probability interpolator of
`fdc_mapping` at `simMultiYear`: the pairs `(janVals[k], pGrid[k])` sorted
ascending by abscissa. -/
def janPtsProb : List (ℚ × ℚ) :=
  (List.range 201).map (fun (j : ℕ) => (10 + (j : ℚ) / 10, (j : ℚ) / 2))

/-- The anchors of the January probability-to-flow interpolator. -/
def janPtsFlow : List (ℚ × ℚ) :=
  (List.range 201).map (fun (j : ℕ) => ((j : ℚ) / 2, 10 + (j : ℚ) / 10))

/-- The anchors of the February probability-to-flow interpolator. -/
def febPtsFlow : List (ℚ × ℚ) :=
  (List.range 201).map (fun (j : ℕ) => ((j : ℚ) / 2, (20 : ℚ)))

instance : IsTotal (ℚ × ℚ) (fun a b => a.1 ≤ b.1) := ⟨fun a b => le_total a.1 b.1⟩

instance : IsTrans (ℚ × ℚ) (fun a b => a.1 ≤ b.1) := ⟨fun _ _ _ h1 h2 => le_trans h1 h2⟩

/-! ### Properties of the percentile interpolation (claim C1) -/

lemma sorted_getD_le {s : List ℚ} (hs : List.Sorted (· ≤ ·) s) {i j : ℕ}
    (hij : i ≤ j) (hj : j < s.length) : s.getD i 0 ≤ s.getD j 0 := by
  have hi : i < s.length := lt_of_le_of_lt hij hj
  rw [List.getD_eq_getElem s 0 hi, List.getD_eq_getElem s 0 hj]
  have h := hs.rel_get_of_le (a := ⟨i, hi⟩) (b := ⟨j, hj⟩) (Fin.mk_le_mk.mpr hij)
  simpa [List.get_eq_getElem] using h

lemma interp_le_upper {s : List ℚ} (hs : List.Sorted (· ≤ ·) s) {i : ℕ}
    (hA : i + 1 < s.length) {p : ℚ} (hu : p < (i : ℚ) + 1) :
    s.getD i 0 + (p - (i : ℚ)) * (s.getD (i + 1) 0 - s.getD i 0) ≤ s.getD (i + 1) 0 := by
  have hd : s.getD i 0 ≤ s.getD (i + 1) 0 := sorted_getD_le hs (Nat.le_succ i) hA
  have hfr : p - (i : ℚ) ≤ 1 := by linarith
  have hmul := mul_le_mul_of_nonneg_right hfr
    (by linarith : (0 : ℚ) ≤ s.getD (i + 1) 0 - s.getD i 0)
  linarith

lemma interp_ge_lower {s : List ℚ} (hs : List.Sorted (· ≤ ·) s) {i : ℕ}
    (hA : i + 1 < s.length) {p : ℚ} (hl : (i : ℚ) ≤ p) :
    s.getD i 0 ≤ s.getD i 0 + (p - (i : ℚ)) * (s.getD (i + 1) 0 - s.getD i 0) := by
  have hd : s.getD i 0 ≤ s.getD (i + 1) 0 := sorted_getD_le hs (Nat.le_succ i) hA
  have hmul := mul_nonneg (by linarith : (0 : ℚ) ≤ p - (i : ℚ))
    (by linarith : (0 : ℚ) ≤ s.getD (i + 1) 0 - s.getD i 0)
  linarith

lemma interpAt_mono {s : List ℚ} (hs : List.Sorted (· ≤ ·) s) {p1 p2 : ℚ}
    (h0 : 0 ≤ p1) (h12 : p1 ≤ p2) : interpAt s p1 ≤ interpAt s p2 := by
  have h02 : 0 ≤ p2 := le_trans h0 h12
  have hz1 : ((Int.floor p1).toNat : ℤ) = Int.floor p1 :=
    Int.toNat_of_nonneg (Int.floor_nonneg.mpr h0)
  have hz2 : ((Int.floor p2).toNat : ℤ) = Int.floor p2 :=
    Int.toNat_of_nonneg (Int.floor_nonneg.mpr h02)
  have hq1l : (((Int.floor p1).toNat : ℕ) : ℚ) ≤ p1 := by
    have := Int.floor_le p1
    have hcast : (((Int.floor p1).toNat : ℕ) : ℚ) = ((Int.floor p1 : ℤ) : ℚ) := by
      exact_mod_cast hz1
    rw [hcast]; exact this
  have hq1u : p1 < (((Int.floor p1).toNat : ℕ) : ℚ) + 1 := by
    have := Int.lt_floor_add_one p1
    have hcast : (((Int.floor p1).toNat : ℕ) : ℚ) = ((Int.floor p1 : ℤ) : ℚ) := by
      exact_mod_cast hz1
    rw [hcast]; exact_mod_cast this
  have hq2l : (((Int.floor p2).toNat : ℕ) : ℚ) ≤ p2 := by
    have := Int.floor_le p2
    have hcast : (((Int.floor p2).toNat : ℕ) : ℚ) = ((Int.floor p2 : ℤ) : ℚ) := by
      exact_mod_cast hz2
    rw [hcast]; exact this
  have hii : (Int.floor p1).toNat ≤ (Int.floor p2).toNat := by
    have := Int.floor_le_floor h12
    omega
  simp only [interpAt]
  split_ifs with hA hB hB
  · rcases eq_or_lt_of_le hii with heq | hlt
    · rw [heq] at hq1l hq1u ⊢
      have hd : s.getD (Int.floor p2).toNat 0 ≤ s.getD ((Int.floor p2).toNat + 1) 0 :=
        sorted_getD_le hs (Nat.le_succ _) hB
      have hmul := mul_le_mul_of_nonneg_right
        (by linarith : p1 - (((Int.floor p2).toNat : ℕ) : ℚ) ≤ p2 - (((Int.floor p2).toNat : ℕ) : ℚ))
        (by linarith : (0 : ℚ) ≤ s.getD ((Int.floor p2).toNat + 1) 0 - s.getD (Int.floor p2).toNat 0)
      linarith
    · have h1 := interp_le_upper hs hA hq1u
      have h2 : s.getD ((Int.floor p1).toNat + 1) 0 ≤ s.getD (Int.floor p2).toNat 0 :=
        sorted_getD_le hs hlt (by omega)
      have h3 := interp_ge_lower hs hB hq2l
      linarith
  · have h1 := interp_le_upper hs hA hq1u
    have h2 : s.getD ((Int.floor p1).toNat + 1) 0 ≤ s.getD (s.length - 1) 0 :=
      sorted_getD_le hs (by omega) (by omega)
    linarith
  · exact absurd hB (by omega)
  · exact le_refl _

lemma percentileLinear_mono (xs : List ℚ) {q1 q2 : ℚ} (h0 : 0 ≤ q1) (h12 : q1 ≤ q2) :
    percentileLinear xs q1 ≤ percentileLinear xs q2 := by
  cases xs with
  | nil => simp [percentileLinear, interpAt]
  | cons hd tl =>
    have hs : List.Sorted (· ≤ ·) (List.insertionSort (· ≤ ·) (hd :: tl)) :=
      List.sorted_insertionSort _ _
    have hlen : (0 : ℚ) ≤ (((hd :: tl).length : ℚ) - 1) := by
      have : (1 : ℚ) ≤ ((hd :: tl).length : ℚ) := by exact_mod_cast Nat.succ_le_of_lt (by simp)
      linarith
    have hdiv : q1 / 100 ≤ q2 / 100 := by linarith
    have hdiv0 : 0 ≤ q1 / 100 := by linarith
    exact interpAt_mono hs (mul_nonneg hdiv0 hlen) (mul_le_mul_of_nonneg_right hdiv hlen)

lemma chain'_of_pairwiseAdj {p : α → α → Bool} :
    ∀ {l : List α}, pairwiseAdj p l = true → l.Chain' (fun a b => p a b = true)
  | [], _ => List.chain'_nil
  | [a], _ => List.chain'_singleton a
  | _ :: b :: t, h => by
      rw [pairwiseAdj, Bool.and_eq_true] at h
      exact List.chain'_cons.mpr ⟨h.1, chain'_of_pairwiseAdj h.2⟩

unseal Rat.add Rat.mul Rat.inv Rat.sub Rat.ofScientific in
/-- C1 (amended): for every flow sample, `calc_fdc` over 201 steps returns a
curve of 201 rows keyed by exceedance probability strictly descending from
100 to 0, in which probability `p` is assigned the `p`-th percentile of the
sample (not the `(100-p)`-th); consequently the flow values are monotonically
non-increasing *down the list* — i.e. non-decreasing in probability — and the
value at probability 100 is greater than or equal to the value at
probability 0. -/
theorem calc_fdc_percentile_curve (flows : List ℚ) (col : String) :
    (calc_fdc flows 201 col).index.length = 201 ∧
    (calc_fdc flows 201 col).index.Chain' (fun a b => b < a) ∧
    (calc_fdc flows 201 col).index.head? = some 100 ∧
    (calc_fdc flows 201 col).index.getLast? = some 0 ∧
    (calc_fdc flows 201 col).values =
      (calc_fdc flows 201 col).index.map (percentileLinear flows) ∧
    (calc_fdc flows 201 col).values.Chain' (fun a b => b ≤ a) ∧
    (calc_fdc flows 201 col).values.getLast?.getD 0 ≤
      (calc_fdc flows 201 col).values.head?.getD 0 := by
  refine ⟨?_, ?_, ?_, ?_, rfl, ?_, ?_⟩
  · show (linspaceDesc 201).length = 201
    decide
  · have hb : pairwiseAdj (fun a b => decide (b < a)) (linspaceDesc 201) = true := by decide
    exact (chain'_of_pairwiseAdj hb).imp (fun a b h => of_decide_eq_true h)
  · show (linspaceDesc 201).head? = some 100
    decide
  · show (linspaceDesc 201).getLast? = some 0
    decide
  · have hb : pairwiseAdj (fun a b => decide (b ≤ a ∧ 0 ≤ b)) (linspaceDesc 201) = true := by
      decide
    have hmono : (linspaceDesc 201).Chain'
        (fun a b => percentileLinear flows b ≤ percentileLinear flows a) :=
      (chain'_of_pairwiseAdj hb).imp (fun a b h => by
        have h' := of_decide_eq_true h
        exact percentileLinear_mono flows h'.2 h'.1)
    show ((linspaceDesc 201).map (percentileLinear flows)).Chain' (fun a b => b ≤ a)
    rw [List.chain'_map]
    exact hmono
  · show ((linspaceDesc 201).map (percentileLinear flows)).getLast?.getD 0 ≤
      ((linspaceDesc 201).map (percentileLinear flows)).head?.getD 0
    rw [List.getLast?_map, List.head?_map]
    have h1 : (linspaceDesc 201).head? = some 100 := by decide
    have h2 : (linspaceDesc 201).getLast? = some 0 := by decide
    rw [h1, h2]
    simpa using percentileLinear_mono flows le_rfl (by norm_num : (0 : ℚ) ≤ 100)

unseal Rat.add Rat.mul Rat.inv Rat.sub Rat.ofScientific in
/-- C1 counterexample: for the sample `[1, 2]` the curve's entry at
probability 100 is 2 (the maximum, i.e. the 100-th percentile, not the 0-th)
and the entry at probability 0 is 1, and `2 ≤ 1` is false — refuting both the
claimed `(100-p)`-th-percentile convention and the claimed monotone
non-increase of flow with increasing probability. -/
theorem calc_fdc_counterexample :
    (calc_fdc [1, 2] 201 "Q").index.head? = some 100 ∧
    (calc_fdc [1, 2] 201 "Q").index.getLast? = some 0 ∧
    (calc_fdc [1, 2] 201 "Q").values.head? = some 2 ∧
    (calc_fdc [1, 2] 201 "Q").values.getLast? = some 1 ∧
    ¬((2 : ℚ) ≤ 1) := by decide

/-! ### The z-score outlier filter (claim C8) -/

lemma zscore_iff {x mu v t : ℚ} (hv : 0 < v) :
    (0 < t ∧ (x - mu) ^ 2 < t ^ 2 * v) ↔
      |((x : ℝ) - (mu : ℝ))| / Real.sqrt (v : ℝ) < (t : ℝ) := by
  have hvR : (0 : ℝ) < (v : ℝ) := by exact_mod_cast hv
  have hs : 0 < Real.sqrt (v : ℝ) := Real.sqrt_pos.mpr hvR
  have hs2 : Real.sqrt (v : ℝ) ^ 2 = (v : ℝ) := Real.sq_sqrt hvR.le
  constructor
  · rintro ⟨ht, hlt⟩
    have htR : (0 : ℝ) < (t : ℝ) := by exact_mod_cast ht
    have hltR : ((x : ℝ) - (mu : ℝ)) ^ 2 < (t : ℝ) ^ 2 * (v : ℝ) := by exact_mod_cast hlt
    rw [div_lt_iff hs]
    nlinarith [sq_abs ((x : ℝ) - (mu : ℝ)), abs_nonneg ((x : ℝ) - (mu : ℝ)),
      mul_pos htR hs]
  · intro h
    have habs : 0 ≤ |((x : ℝ) - (mu : ℝ))| / Real.sqrt (v : ℝ) :=
      div_nonneg (abs_nonneg _) hs.le
    have htR : (0 : ℝ) < (t : ℝ) := lt_of_le_of_lt habs h
    have ht : 0 < t := by exact_mod_cast htR
    refine ⟨ht, ?_⟩
    have h' : |((x : ℝ) - (mu : ℝ))| < (t : ℝ) * Real.sqrt (v : ℝ) := (div_lt_iff hs).mp h
    have hR : ((x : ℝ) - (mu : ℝ)) ^ 2 < (t : ℝ) ^ 2 * (v : ℝ) := by
      nlinarith [sq_abs ((x : ℝ) - (mu : ℝ)), abs_nonneg ((x : ℝ) - (mu : ℝ))]
    exact_mod_cast hR

/-- C8 (amended): the outlier filter keeps exactly the rows whose absolute
z-score over the full sample is *strictly less than* the threshold (a row
whose z-score equals the threshold exactly is dropped), the z-score being
`(x - mean) / sqrt(population variance)`. -/
theorem drop_outliers_zscore_strict (df : Series) (t : ℚ) (e : Date × ℚ)
    (hv : 0 < popVar (seriesValues df) (listMean (seriesValues df))) :
    e ∈ drop_outliers_by_zscore df t ↔
      e ∈ df ∧
        |((e.2 : ℝ)) - ((listMean (seriesValues df) : ℚ) : ℝ)| /
            Real.sqrt ((popVar (seriesValues df) (listMean (seriesValues df)) : ℚ) : ℝ)
          < ((t : ℚ) : ℝ) := by
  simp only [drop_outliers_by_zscore, List.mem_filter, Bool.and_eq_true, decide_eq_true_eq]
  constructor
  · rintro ⟨hmem, ht, hlt⟩
    exact ⟨hmem, (zscore_iff hv).mp ⟨ht, hlt⟩⟩
  · rintro ⟨hmem, h⟩
    obtain ⟨ht, hlt⟩ := (zscore_iff hv).mpr h
    exact ⟨hmem, ht, hlt⟩

unseal Rat.add Rat.mul Rat.inv Rat.sub Rat.ofScientific in
/-- C8 counterexample: in `zsample` the row with value 10 has absolute z-score
exactly equal to the threshold 3 (`(10 - mean)² = 3² · variance`, i.e.
`81 = 9 · 9`), so by the claim ("does not exceed the threshold") it should be
kept — but the code's strict comparison `np.abs(zscore) < 3` drops it.  The
sample is chosen so that the floating-point computation is exact (the mean is
1, the standard deviation 3 and the z-score 3.0 are all computed without
rounding in binary64), so the program's float comparison decides the boundary
the same way as the rational model. -/
theorem drop_outliers_boundary_counterexample :
    ((10 : ℚ) - listMean (seriesValues zsample)) ^ 2 =
      3 ^ 2 * popVar (seriesValues zsample) (listMean (seriesValues zsample)) ∧
    (⟨2000, 1, 10⟩, (10 : ℚ)) ∈ zsample ∧
    (⟨2000, 1, 10⟩, (10 : ℚ)) ∉ drop_outliers_by_zscore zsample 3 := by decide

unseal Rat.add Rat.mul Rat.inv Rat.sub Rat.ofScientific in
/-- Witness for `drop_outliers_zscore_strict` at the concrete sample
`zsample` with threshold 4 and the row carrying value 10. -/
theorem drop_outliers_zscore_strict_witness :
    (⟨2000, 1, 10⟩, (10 : ℚ)) ∈ drop_outliers_by_zscore zsample 4 ↔
      (⟨2000, 1, 10⟩, (10 : ℚ)) ∈ zsample ∧
        |(((10 : ℚ) : ℝ)) - ((listMean (seriesValues zsample) : ℚ) : ℝ)| /
            Real.sqrt ((popVar (seriesValues zsample) (listMean (seriesValues zsample)) : ℚ) : ℝ)
          < ((4 : ℚ) : ℝ) :=
  drop_outliers_zscore_strict zsample 4 (⟨2000, 1, 10⟩, (10 : ℚ)) (by decide)

/-! ### The interpolator builder (claim C9) -/

/-- C9 (amended): on equal-length inputs `_make_interpolator` raises exactly
when the policy is `const` with no fill value, or the policy string is not
one of the recognised policies — which include the aliases `maximum` and
`minimum` alongside `nearest, const, linear, average, max, min` — or the
input is too short for the branch: empty for `nearest` (`interp1d` needs at
least one anchor for that kind), fewer than two points for every other
recognised policy (at zero length the `max`/`min` reductions raise, at one
point the linear-kind `interp1d` constructor does).  Only the first two are
configuration errors; any recognised policy with its required parameters and
at least two points returns an interpolator without raising. -/
theorem make_interpolator_error_iff (x y : List ℚ) (extrap : String)
    (fill_value : Option ℚ) (hlen : x.length = y.length) :
    exceptIsErr (make_interpolator x y extrap fill_value) = true ↔
      ((extrap = "const" ∧ fill_value = none) ∨
        ¬(extrap ∈ (["nearest", "const", "linear", "average", "max", "maximum",
            "min", "minimum"] : List String)) ∨
        (extrap = "nearest" ∧ x.length < 1) ∨
        (extrap ∈ (["const", "linear", "average", "max", "maximum",
            "min", "minimum"] : List String) ∧ x.length < 2)) := by
  by_cases h1 : extrap = "nearest"
  · subst h1
    by_cases hx : x.length < 1 <;> simp_all [make_interpolator, exceptIsErr]
  · by_cases h2 : extrap = "const"
    · subst h2
      cases fill_value with
      | none => simp_all [make_interpolator, exceptIsErr]
      | some c =>
        by_cases hx : x.length < 2
        · simp_all [make_interpolator, exceptIsErr]
        · simp_all [make_interpolator, exceptIsErr]
          rw [if_neg (by omega : ¬(y.length < 2))]
          simp
          omega
    · by_cases h3 : extrap = "linear"
      · subst h3
        by_cases hx : x.length < 2
        · simp_all [make_interpolator, exceptIsErr]
        · simp_all [make_interpolator, exceptIsErr]
          rw [if_neg (by omega : ¬(y.length < 2))]
          simp
          omega
      · by_cases h4 : extrap = "average"
        · subst h4
          by_cases hx : x.length < 2
          · simp_all [make_interpolator, exceptIsErr]
          · simp_all [make_interpolator, exceptIsErr]
            rw [if_neg (by omega : ¬(y.length < 2))]
            simp
            omega
        · by_cases h5 : extrap = "max"
          · subst h5
            by_cases hy : y.length = 0
            · have hx : x.length < 2 := by omega
              simp_all [make_interpolator, exceptIsErr]
            · by_cases hx : x.length < 2
              · simp_all [make_interpolator, exceptIsErr]
              · simp_all [make_interpolator, exceptIsErr]
                rw [if_neg (by omega : ¬(y.length < 2))]
                simp
                omega
          · by_cases h5' : extrap = "maximum"
            · subst h5'
              by_cases hy : y.length = 0
              · have hx : x.length < 2 := by omega
                simp_all [make_interpolator, exceptIsErr]
              · by_cases hx : x.length < 2
                · simp_all [make_interpolator, exceptIsErr]
                · simp_all [make_interpolator, exceptIsErr]
                  rw [if_neg (by omega : ¬(y.length < 2))]
                  simp
                  omega
            · by_cases h6 : extrap = "min"
              · subst h6
                by_cases hy : y.length = 0
                · have hx : x.length < 2 := by omega
                  simp_all [make_interpolator, exceptIsErr]
                · by_cases hx : x.length < 2
                  · simp_all [make_interpolator, exceptIsErr]
                  · simp_all [make_interpolator, exceptIsErr]
                    rw [if_neg (by omega : ¬(y.length < 2))]
                    simp
                    omega
              · by_cases h6' : extrap = "minimum"
                · subst h6'
                  by_cases hy : y.length = 0
                  · have hx : x.length < 2 := by omega
                    simp_all [make_interpolator, exceptIsErr]
                  · by_cases hx : x.length < 2
                    · simp_all [make_interpolator, exceptIsErr]
                    · simp_all [make_interpolator, exceptIsErr]
                      rw [if_neg (by omega : ¬(y.length < 2))]
                      simp
                      omega
                · simp_all [make_interpolator, exceptIsErr]

/-- C9 counterexample: the policy string `maximum` is accepted by the builder
on a two-point input (no error is raised), yet it is not one of the six
recognised policies listed by the claim, which therefore demands an error for
it; and on an empty input the recognised policy `max` raises (the zero-size
reduction), where the claim's never-raises clause demands an interpolator. -/
theorem make_interpolator_maximum_counterexample :
    (exceptIsOk (make_interpolator [0, 1] [0, 1] "maximum" none) = true ∧
      ¬("maximum" ∈ (["nearest", "const", "linear", "average", "max", "min"] :
          List String))) ∧
    exceptIsErr (make_interpolator ([] : List ℚ) ([] : List ℚ) "max" none) = true := by
  decide

/-- Witness for `make_interpolator_error_iff`: on a two-point input the
unrecognised policy string `bogus` raises a configuration error. -/
theorem make_interpolator_error_iff_witness :
    ([0, 1] : List ℚ).length = ([0, 1] : List ℚ).length ∧
    exceptIsErr (make_interpolator [0, 1] [0, 1] "bogus" none) = true :=
  ⟨rfl, (make_interpolator_error_iff [0, 1] [0, 1] "bogus" none rfl).mpr
    (Or.inr (Or.inl (by decide)))⟩

/-! ### The scalar flow duration curve (claim C4) -/

lemma clampNonneg_nonneg (v : ℚ) : 0 ≤ clampNonneg v := by
  unfold clampNonneg
  split <;> linarith

/-- C4 (amended): `calc_sfdc` drops every entry whose ratio is `NaN` or `+inf`
(so the curve holds no `NaN` and no positive infinity), and its index is a
subset of the simulated input FDC's index; an entry whose ratio is `-inf`
(negative simulated quantile over a zero observed quantile) is *retained*,
so the curve is entirely finite only when the simulated quantiles are
nonnegative, in which case every kept entry carries the finite ratio. -/
theorem calc_sfdc_scalar_entries (sim obs : QSeries) (p a b : ℚ)
    (hmem : (p, (a, b)) ∈ sim.index.zip (sim.values.zip obs.values)) :
    ((divF a b = FloatVal.nan ∨ divF a b = FloatVal.posInf) → sfdcKeepVal a b = false) ∧
    (∀ q ∈ (calc_sfdc sim obs).index, q ∈ sim.index) ∧
    ((∀ v ∈ sim.values, 0 ≤ v) → sfdcKeepVal a b = true →
      divF a b = FloatVal.num (a / b)) := by
  refine ⟨?_, ?_, ?_⟩
  · rintro (h | h) <;> simp [sfdcKeepVal, h]
  · intro q hq
    simp only [calc_sfdc, List.mem_map] at hq
    obtain ⟨t, ht, rfl⟩ := hq
    obtain ⟨t1, t2⟩ := t
    exact (List.of_mem_zip (List.mem_filter.mp ht).1).1
  · intro hnn hkeep
    have ha : a ∈ sim.values := by
      have h2 := (List.of_mem_zip hmem).2
      exact (List.of_mem_zip h2).1
    have h0a : 0 ≤ a := hnn a ha
    by_cases hb : b = 0
    · exfalso
      have hfalse : sfdcKeepVal a b = false := by
        subst hb
        by_cases hpos : 0 < a
        · simp [sfdcKeepVal, divF, hpos]
        · simp [sfdcKeepVal, divF, hpos, show ¬(a < 0) by linarith]
      rw [hfalse] at hkeep
      cases hkeep
    · simp [divF, hb]

/-- C4 counterexample: for a simulated FDC value `-1` over an observed FDC
value `0` the ratio is `-inf`; the entry is *kept* by `calc_sfdc` (only
`+inf` is replaced before `dropna`), so the scalar curve can contain an
infinite entry. -/
theorem calc_sfdc_neginf_counterexample :
    (calc_sfdc ⟨[50], [-1]⟩ ⟨[50], [0]⟩).index = [50] ∧
    divF (-1) 0 = FloatVal.negInf ∧
    sfdcKeepVal (-1) 0 = true := by decide

/-- Witness for `calc_sfdc_scalar_entries` on a concrete pair of one-point
curves with positive observed quantile. -/
theorem calc_sfdc_scalar_entries_witness :
    divF (4 : ℚ) 2 = FloatVal.num (4 / 2) :=
  (calc_sfdc_scalar_entries ⟨[100, 50], [4, 6]⟩ ⟨[100, 50], [2, 3]⟩ 100 4 2
    (by decide)).2.2 (by decide) (by decide)

/-! ### The Gumbel tail fitter (claim C5) -/

lemma fit_gumbel_getD (rlog rsqrt : ℚ → ℚ) (q p : List ℚ) (lo hb : ℚ)
    (hlen : q.length = p.length) {i : ℕ} (hqi : i < q.length) :
    (fit_extreme_values_to_gumbel rlog rsqrt q p (lo, hb)).getD i 0 =
      if lo ≤ p.getD i 0 ∧ p.getD i 0 ≤ hb then q.getD i 0
      else clampNonneg (gumbel_point rlog
        (rsqrt (sampleVar (gumbel_mid_vals q p lo hb)
          (listMean (gumbel_mid_vals q p lo hb))))
        (listMean (gumbel_mid_vals q p lo hb)) (p.getD i 0)) := by
  have hip : i < p.length := hlen ▸ hqi
  have hzip : i < (q.zip p).length := by
    rw [List.length_zip, hlen, Nat.min_self]
    exact hip
  have hfit : i < (fit_extreme_values_to_gumbel rlog rsqrt q p (lo, hb)).length := by
    rw [fit_extreme_values_to_gumbel, List.length_map]
    exact hzip
  rw [List.getD_eq_getElem _ 0 hfit, List.getD_eq_getElem q 0 hqi,
    List.getD_eq_getElem p 0 hip]
  simp only [fit_extreme_values_to_gumbel, List.getElem_map, List.getElem_zip]

/-- C5: with at least two points inside the trusted `fit_range`, the Gumbel
tail fitter leaves every in-range point unchanged; every out-of-range point
is replaced by the closed-form Gumbel estimate built from the in-range mean
and sample standard deviation, clamped at zero — hence no replaced value is
negative — and when all points are in range the output equals the input. -/
theorem fit_gumbel_spec (rlog rsqrt : ℚ → ℚ) (q p : List ℚ) (lo hb : ℚ)
    (hlen : q.length = p.length)
    (hmid : 2 ≤ ((q.zip p).filter
      (fun t => decide (lo ≤ t.2) && decide (t.2 ≤ hb))).length) :
    (fit_extreme_values_to_gumbel rlog rsqrt q p (lo, hb)).length = q.length ∧
    (∀ i, i < q.length → lo ≤ p.getD i 0 → p.getD i 0 ≤ hb →
      (fit_extreme_values_to_gumbel rlog rsqrt q p (lo, hb)).getD i 0 = q.getD i 0) ∧
    (∀ i, i < q.length → ¬(lo ≤ p.getD i 0 ∧ p.getD i 0 ≤ hb) →
      (fit_extreme_values_to_gumbel rlog rsqrt q p (lo, hb)).getD i 0 =
        clampNonneg (gumbel_point rlog
          (rsqrt (sampleVar (gumbel_mid_vals q p lo hb)
            (listMean (gumbel_mid_vals q p lo hb))))
          (listMean (gumbel_mid_vals q p lo hb)) (p.getD i 0)) ∧
      0 ≤ (fit_extreme_values_to_gumbel rlog rsqrt q p (lo, hb)).getD i 0) ∧
    ((∀ i, i < q.length → lo ≤ p.getD i 0 ∧ p.getD i 0 ≤ hb) →
      fit_extreme_values_to_gumbel rlog rsqrt q p (lo, hb) = q) := by
  have hlength : (fit_extreme_values_to_gumbel rlog rsqrt q p (lo, hb)).length = q.length := by
    rw [fit_extreme_values_to_gumbel, List.length_map, List.length_zip, hlen, Nat.min_self]
  refine ⟨hlength, ?_, ?_, ?_⟩
  · intro i hqi h1 h2
    rw [fit_gumbel_getD rlog rsqrt q p lo hb hlen hqi, if_pos ⟨h1, h2⟩]
  · intro i hqi hout
    rw [fit_gumbel_getD rlog rsqrt q p lo hb hlen hqi, if_neg hout]
    exact ⟨rfl, clampNonneg_nonneg _⟩
  · intro hall
    apply List.ext_getElem (by rw [hlength])
    intro i hi1 hi2
    have hkey := fit_gumbel_getD rlog rsqrt q p lo hb hlen hi2
    rw [if_pos (hall i hi2)] at hkey
    rw [List.getD_eq_getElem _ 0 hi1, List.getD_eq_getElem q 0 hi2] at hkey
    exact hkey

unseal Rat.add Rat.mul Rat.inv Rat.sub Rat.ofScientific in
/-- Witness for `fit_gumbel_spec` at a concrete three-point input whose third
probability lies outside the trusted range. -/
theorem fit_gumbel_spec_witness :
    ((fit_extreme_values_to_gumbel rzero rzero [1, 2, 3] [50, 60, 5] (10, 90)).getD 2 0 =
      clampNonneg (gumbel_point rzero
        (rzero (sampleVar (gumbel_mid_vals [1, 2, 3] [50, 60, 5] 10 90)
          (listMean (gumbel_mid_vals [1, 2, 3] [50, 60, 5] 10 90))))
        (listMean (gumbel_mid_vals [1, 2, 3] [50, 60, 5] 10 90))
        (([50, 60, 5] : List ℚ).getD 2 0))) ∧
    0 ≤ (fit_extreme_values_to_gumbel rzero rzero [1, 2, 3] [50, 60, 5] (10, 90)).getD 2 0 :=
  (fit_gumbel_spec rzero rzero [1, 2, 3] [50, 60, 5] 10 90 (by decide)
    (by decide)).2.2.1 2 (by decide) (by decide)

/-! ### Structural facts about `sfdc_mapping` (claims C3, C6, C10) -/

lemma mkResponse_dates {sb : Series} {qmod scalars pex : List ℚ} {md : Bool} :
    ∀ r ∈ mkResponse sb qmod scalars pex md, r.date ∈ sb.map (·.1) := by
  intro r hr
  simp only [mkResponse, List.mem_map] at hr
  obtain ⟨t, ht, rfl⟩ := hr
  obtain ⟨t1, t2⟩ := t
  exact List.mem_map.mpr ⟨t1, (List.of_mem_zip ht).1, rfl⟩

lemma sfdc_apply_ok_dates {rlog rsqrt : ℚ → ℚ} {sb : Series} {fdcb scal : QDF}
    {o : SaberOpts} {rows : List CRow}
    (h : sfdc_apply rlog rsqrt sb fdcb scal o = Except.ok rows) :
    ∀ r ∈ rows, r.date ∈ sb.map (·.1) := by
  unfold sfdc_apply at h
  split at h
  · exact Except.noConfusion h
  · split at h
    · exact Except.noConfusion h
    · injection h with h'
      subst h'
      exact mkResponse_dates

lemma sfdc_tail_ok_dates {rlog rsqrt : ℚ → ℚ} {sa oa sb : Series}
    {o : SaberOpts} {simCol obsCol : List ℚ} {rows : List CRow}
    (h : sfdc_tail rlog rsqrt sa oa sb o simCol obsCol = Except.ok rows) :
    ∀ r ∈ rows, r.date ∈ sb.map (·.1) := by
  unfold sfdc_tail at h
  by_cases hf : o.filter_scalar_fdc = true
  · rw [if_pos hf] at h
    cases hget : QDF.get (scalar_fdc_of o.drop_outliers o.outlier_threshold
        sa oa simCol obsCol) "p_exceed" with
    | error e => rw [hget] at h; exact Except.noConfusion h
    | ok pcol => rw [hget] at h; dsimp only at h; exact sfdc_apply_ok_dates h
  · rw [if_neg hf] at h
    exact sfdc_apply_ok_dates h

lemma sfdc_ns_ok_dates {rlog rsqrt : ℚ → ℚ} {sa oa : Series} {sb : Series}
    {o : SaberOpts} {rows : List CRow}
    (h : sfdc_ns rlog rsqrt sa oa (some sb) o = Except.ok rows) :
    ∀ r ∈ rows, r.date ∈ sb.map (·.1) := by
  simp only [sfdc_ns] at h
  cases hget1 : QDF.get (fdcOf o.drop_outliers o.outlier_threshold sa q_sim) q_sim with
  | error e => rw [hget1] at h; exact Except.noConfusion h
  | ok simCol =>
    rw [hget1] at h
    dsimp only at h
    cases hget2 : QDF.get (fdcOf o.drop_outliers o.outlier_threshold oa q_obs) q_obs with
    | error e => rw [hget2] at h; exact Except.noConfusion h
    | ok obsCol =>
      rw [hget2] at h
      dsimp only at h
      exact sfdc_tail_ok_dates h

lemma fdcOf_get (dro : Bool) (thr : ℚ) (s : Series) (c : String) :
    QDF.get (fdcOf dro thr s c) c = Except.ok (fdcOf dro thr s c).values := by
  cases dro <;> simp [fdcOf, QDF.get, calc_fdc]

lemma sfdc_tail_filter_error (rlog rsqrt : ℚ → ℚ) (sa oa sb : Series)
    (o : SaberOpts) (simCol obsCol : List ℚ) (hf : o.filter_scalar_fdc = true) :
    exceptIsErr (sfdc_tail rlog rsqrt sa oa sb o simCol obsCol) = true := by
  unfold sfdc_tail
  rw [if_pos hf]
  have hneq : ¬("p_exceed" = (scalar_fdc_of o.drop_outliers o.outlier_threshold
      sa oa simCol obsCol).colName) := by
    simp only [scalar_fdc_of, calc_sfdc]
    decide
  rw [QDF.get, if_neg hneq]
  rfl

lemma sfdc_ns_filter_error (rlog rsqrt : ℚ → ℚ) (sa oa : Series)
    (sb : Option Series) (o : SaberOpts) (hf : o.filter_scalar_fdc = true) :
    exceptIsErr (sfdc_ns rlog rsqrt sa oa sb o) = true := by
  cases sb with
  | none => rfl
  | some s =>
    simp only [sfdc_ns]
    rw [fdcOf_get, fdcOf_get]
    dsimp only
    exact sfdc_tail_filter_error rlog rsqrt sa oa s _ _ _ hf

lemma month_block_ok_dates {rlog rsqrt : ℚ → ℚ} {sa oa : Series}
    {sb : Option Series} {o : SaberOpts} {m : ℕ} {rows : List CRow}
    (h : month_block rlog rsqrt sa oa sb o m = Except.ok rows) :
    ∀ r ∈ rows, r.date.m = m := by
  unfold month_block at h
  cases sb with
  | none => exact Except.noConfusion h
  | some sbf =>
    intro r hr
    have hd := sfdc_ns_ok_dates h r hr
    simp only [monthFilter, List.mem_map] at hd
    obtain ⟨e, he, hre⟩ := hd
    have := (List.mem_filter.mp he).2
    rw [← hre]
    exact of_decide_eq_true this

lemma month_block_filter_error (rlog rsqrt : ℚ → ℚ) (sa oa : Series)
    (sb : Option Series) (o : SaberOpts) (m : ℕ) (hf : o.filter_scalar_fdc = true) :
    exceptIsErr (month_block rlog rsqrt sa oa sb o m) = true := by
  unfold month_block
  cases sb with
  | none => rfl
  | some sbf => exact sfdc_ns_filter_error _ _ _ _ _ _ hf

lemma seasonal_loop_ok_months {rlog rsqrt : ℚ → ℚ} {sa oa : Series}
    {sb : Option Series} {o : SaberOpts} :
    ∀ {months : List ℕ} {lists : List (List CRow)},
      seasonal_loop rlog rsqrt sa oa sb o months = Except.ok lists →
      ∀ l ∈ lists, ∀ r ∈ l, monthFilter oa r.date.m ≠ [] := by
  intro months
  induction months with
  | nil =>
    intro lists h l hl
    injection h with h'
    subst h'
    exact absurd hl (List.not_mem_nil l)
  | cons m ms ih =>
    intro lists h l hl r hr
    rw [seasonal_loop] at h
    by_cases hm : monthFilter oa m = []
    · rw [if_pos hm] at h
      by_cases hskip : o.empty_months = "skip"
      · rw [if_pos hskip] at h
        exact ih h l hl r hr
      · rw [if_neg hskip] at h
        exact Except.noConfusion h
    · rw [if_neg hm] at h
      cases hmb : month_block rlog rsqrt sa oa sb o m with
      | error e => rw [hmb] at h; exact Except.noConfusion h
      | ok rows =>
        rw [hmb] at h
        dsimp only at h
        cases hloop : seasonal_loop rlog rsqrt sa oa sb o ms with
        | error e => rw [hloop] at h; exact Except.noConfusion h
        | ok rest =>
          rw [hloop] at h
          dsimp only at h
          injection h with h'
          subst h'
          rcases List.mem_cons.mp hl with rfl | hl'
          · have := month_block_ok_dates hmb r hr
            rw [this]
            exact hm
          · exact ih hloop l hl' r hr

lemma seasonal_loop_err_or_nil {rlog rsqrt : ℚ → ℚ} {sa oa : Series}
    {sb : Option Series} {o : SaberOpts}
    (hblk : ∀ m, monthFilter oa m ≠ [] →
      exceptIsErr (month_block rlog rsqrt sa oa sb o m) = true) :
    ∀ months, exceptIsErr (seasonal_loop rlog rsqrt sa oa sb o months) = true ∨
      seasonal_loop rlog rsqrt sa oa sb o months = Except.ok [] := by
  intro months
  induction months with
  | nil => right; rfl
  | cons m ms ih =>
    rw [seasonal_loop]
    by_cases hm : monthFilter oa m = []
    · rw [if_pos hm]
      by_cases hskip : o.empty_months = "skip"
      · rw [if_pos hskip]
        exact ih
      · rw [if_neg hskip]
        left; rfl
    · rw [if_neg hm]
      have herr := hblk m hm
      cases hmb : month_block rlog rsqrt sa oa sb o m with
      | error e => left; rfl
      | ok rows =>
        rw [hmb] at herr
        simp [exceptIsErr] at herr

lemma seasonal_loop_empty_month_err {rlog rsqrt : ℚ → ℚ} {sa oa : Series}
    {sb : Option Series} {o : SaberOpts} (hns : ¬(o.empty_months = "skip")) :
    ∀ months, (∃ m ∈ months, monthFilter oa m = []) →
      exceptIsErr (seasonal_loop rlog rsqrt sa oa sb o months) = true := by
  intro months
  induction months with
  | nil =>
    rintro ⟨m, hm, _⟩
    exact absurd hm (List.not_mem_nil m)
  | cons m ms ih =>
    rintro ⟨m', hm', hempty⟩
    rw [seasonal_loop]
    by_cases hm : monthFilter oa m = []
    · rw [if_pos hm, if_neg hns]
      rfl
    · rw [if_neg hm]
      rcases List.mem_cons.mp hm' with rfl | hmem
      · exact absurd hempty hm
      · cases hmb : month_block rlog rsqrt sa oa sb o m with
        | error e => rfl
        | ok rows =>
          dsimp only
          have := ih ⟨m', hmem, hempty⟩
          cases hloop : seasonal_loop rlog rsqrt sa oa sb o ms with
          | error e => rfl
          | ok rest =>
            rw [hloop] at this
            simp [exceptIsErr] at this

lemma sfdc_mapping_seasonal_eq (rlog rsqrt : ℚ → ℚ) (sa oa : Series)
    (sb : Option Series) (o : SaberOpts) :
    sfdc_mapping rlog rsqrt sa oa sb true o =
      match seasonal_loop rlog rsqrt sa oa sb o (sortedUniqueMonths sa) with
      | Except.error e => Except.error e
      | Except.ok lists =>
        if lists.isEmpty then Except.error "ValueError: No objects to concatenate"
        else Except.ok (sortRows lists.flatten) := rfl

/-- C3: whenever `sfdc_mapping` is called with `filter_scalar_fdc` enabled the
call raises — the filtering line subscripts the scalar-curve frame by
`p_exceed`, which is its index rather than a column (`KeyError`); a seasonal
call surfaces the error from its first processed month, or the empty-concat
`ValueError` when no month is processed. -/
theorem sfdc_mapping_filter_always_raises (rlog rsqrt : ℚ → ℚ)
    (sim_flow_a obs_flow_a : Series) (sim_flow_b : Option Series)
    (fix_seasonally : Bool) (em : String) (dro : Bool) (thr : ℚ) (fr : ℚ × ℚ)
    (ex : String) (fv : Option ℚ) (fg : Bool) (fr2 : ℚ × ℚ) (md : Bool) :
    exceptIsErr (sfdc_mapping rlog rsqrt sim_flow_a obs_flow_a sim_flow_b
      fix_seasonally ⟨em, dro, thr, true, fr, ex, fv, fg, fr2, md⟩) = true := by
  cases fix_seasonally with
  | false => exact sfdc_ns_filter_error _ _ _ _ _ _ rfl
  | true =>
    rw [sfdc_mapping_seasonal_eq]
    have hblk : ∀ m, monthFilter obs_flow_a m ≠ [] →
        exceptIsErr (month_block rlog rsqrt sim_flow_a obs_flow_a sim_flow_b
          ⟨em, dro, thr, true, fr, ex, fv, fg, fr2, md⟩ m) = true :=
      fun m _ => month_block_filter_error _ _ _ _ _ _ _ rfl
    rcases seasonal_loop_err_or_nil hblk (sortedUniqueMonths sim_flow_a) with herr | hnil
    · cases hl : seasonal_loop rlog rsqrt sim_flow_a obs_flow_a sim_flow_b
          ⟨em, dro, thr, true, fr, ex, fv, fg, fr2, md⟩ (sortedUniqueMonths sim_flow_a) with
      | error e => rfl
      | ok lists => rw [hl] at herr; simp [exceptIsErr] at herr
    · rw [hnil]
      rfl

/-- C10: every call of `sfdc_mapping` that leaves `sim_flow_b` at its default
`None` raises (`TypeError` from subscripting `None`, or the empty-concat
`ValueError` when no month is processed) — there is no fall-back to
self-correction at location A. -/
theorem sfdc_mapping_none_target_raises (rlog rsqrt : ℚ → ℚ)
    (sim_flow_a obs_flow_a : Series) (fix_seasonally : Bool) (o : SaberOpts) :
    exceptIsErr (sfdc_mapping rlog rsqrt sim_flow_a obs_flow_a none
      fix_seasonally o) = true := by
  cases fix_seasonally with
  | false => rfl
  | true =>
    rw [sfdc_mapping_seasonal_eq]
    have hblk : ∀ m, monthFilter obs_flow_a m ≠ [] →
        exceptIsErr (month_block rlog rsqrt sim_flow_a obs_flow_a none o m) = true :=
      fun m _ => rfl
    rcases seasonal_loop_err_or_nil hblk (sortedUniqueMonths sim_flow_a) with herr | hnil
    · cases hl : seasonal_loop rlog rsqrt sim_flow_a obs_flow_a none o
          (sortedUniqueMonths sim_flow_a) with
      | error e => rfl
      | ok lists => rw [hl] at herr; simp [exceptIsErr] at herr
    · rw [hnil]
      rfl

/-- C6 (amended): in seasonal mode, a month with no observed data contributes
no rows to a successful output (its simulated data is skipped); with any
`empty_months` value other than `skip` the configuration error is raised
only when a month with no observed data is actually encountered — a call
whose months all have observed data proceeds normally regardless of the
`empty_months` value. -/
theorem sfdc_mapping_seasonal_empty_months (rlog rsqrt : ℚ → ℚ)
    (sim_flow_a obs_flow_a : Series) (sim_flow_b : Option Series) (o : SaberOpts) :
    (o.empty_months = "skip" →
      ∀ res, sfdc_mapping rlog rsqrt sim_flow_a obs_flow_a sim_flow_b true o =
          Except.ok res →
        ∀ r ∈ res, monthFilter obs_flow_a r.date.m ≠ []) ∧
    (¬(o.empty_months = "skip") →
      (∃ m ∈ sortedUniqueMonths sim_flow_a, monthFilter obs_flow_a m = []) →
      exceptIsErr (sfdc_mapping rlog rsqrt sim_flow_a obs_flow_a sim_flow_b
        true o) = true) := by
  constructor
  · intro _ res hok r hr
    rw [sfdc_mapping_seasonal_eq] at hok
    cases hl : seasonal_loop rlog rsqrt sim_flow_a obs_flow_a sim_flow_b o
        (sortedUniqueMonths sim_flow_a) with
    | error e => rw [hl] at hok; exact Except.noConfusion hok
    | ok lists =>
      rw [hl] at hok
      dsimp only at hok
      by_cases hemp : lists.isEmpty
      · rw [if_pos hemp] at hok; exact Except.noConfusion hok
      · rw [if_neg hemp] at hok
        injection hok with hok'
        subst hok'
        simp only [sortRows] at hr
        have hperm := List.perm_insertionSort
          (fun a b : CRow => dateKey a.date ≤ dateKey b.date) lists.flatten
        have hrmem : r ∈ lists.flatten := hperm.mem_iff.mp hr
        obtain ⟨l, hlmem, hrl⟩ := List.mem_flatten.mp hrmem
        exact seasonal_loop_ok_months hl l hlmem r hrl
  · intro hns hex
    rw [sfdc_mapping_seasonal_eq]
    have herr := @seasonal_loop_empty_month_err rlog rsqrt sim_flow_a obs_flow_a
      sim_flow_b o hns (sortedUniqueMonths sim_flow_a) hex
    cases hl : seasonal_loop rlog rsqrt sim_flow_a obs_flow_a sim_flow_b o
        (sortedUniqueMonths sim_flow_a) with
    | error e => rfl
    | ok lists => rw [hl] at herr; simp [exceptIsErr] at herr

unseal Rat.add Rat.mul Rat.inv Rat.sub Rat.ofScientific in
/-- C6 counterexample: a seasonal call with the invalid policy
`empty_months="bogus"` whose months all have observed data returns normally —
refuting the claim that any non-`skip` value fails fast regardless of
whether an empty month occurs. -/
theorem sfdc_mapping_bogus_policy_no_error :
    exceptIsOk (sfdc_mapping rzero rzero simSeasonal obsSeasonal (some simSeasonal)
      true ⟨"bogus", false, 3, false, (0, 80), "nearest", none, false, (10, 90), false⟩) =
      true := by decide

unseal Rat.add Rat.mul Rat.inv Rat.sub Rat.ofScientific in
/-- Witness for `sfdc_mapping_seasonal_empty_months`: with an invalid policy
and a simulated month (February) carrying no observed data, the seasonal call
raises. -/
theorem sfdc_mapping_seasonal_empty_months_witness :
    exceptIsErr (sfdc_mapping rzero rzero simSeasonalW obsSeasonal (some simSeasonalW)
      true ⟨"bogus", false, 3, false, (0, 80), "nearest", none, false, (10, 90), false⟩) =
      true :=
  (sfdc_mapping_seasonal_empty_months rzero rzero simSeasonalW obsSeasonal
    (some simSeasonalW) ⟨"bogus", false, 3, false, (0, 80), "nearest", none, false,
      (10, 90), false⟩).2 (by decide) ⟨2, by decide, by decide⟩

lemma perm_sorted_strict_eq :
    ∀ {l t : List (ℚ × ℚ)}, l.Perm t →
      List.Sorted (fun a b : ℚ × ℚ => a.1 ≤ b.1) l →
      List.Pairwise (fun a b : ℚ × ℚ => a.1 < b.1) t → l = t := by
  intro l
  induction l with
  | nil => intro t hp _ _; exact (hp.symm.eq_nil).symm
  | cons a l' ih =>
    intro t hp hs hpair
    cases t with
    | nil => exact absurd hp.eq_nil (List.cons_ne_nil a l')
    | cons b t' =>
      have hab : a = b := by
        have hat : a ∈ b :: t' := hp.subset (List.mem_cons_self a l')
        rcases List.mem_cons.mp hat with h | hat'
        · exact h
        · have hba : b.1 < a.1 := (List.pairwise_cons.mp hpair).1 a hat'
          have hbt : b ∈ a :: l' := hp.symm.subset (List.mem_cons_self b t')
          rcases List.mem_cons.mp hbt with h' | hbl
          · subst h'; exact absurd hba (lt_irrefl _)
          · have hab' : a.1 ≤ b.1 := (List.sorted_cons.mp hs).1 b hbl
            exact absurd (lt_of_lt_of_le hba hab') (lt_irrefl _)
      subst hab
      have hp' : l'.Perm t' := hp.cons_inv
      rw [ih hp' (List.sorted_cons.mp hs).2 (List.pairwise_cons.mp hpair).2]

lemma insertionSort_reverse_eq {t : List (ℚ × ℚ)}
    (hp : List.Pairwise (fun a b : ℚ × ℚ => a.1 < b.1) t) :
    List.insertionSort (fun a b : ℚ × ℚ => a.1 ≤ b.1) t.reverse = t :=
  perm_sorted_strict_eq ((List.perm_insertionSort _ _).trans (List.reverse_perm t))
    (List.sorted_insertionSort _ _) hp

lemma pairwise_fst_lt_rangeMap {f : ℕ → ℚ × ℚ} {n : ℕ}
    (hf : ∀ i j, i < j → (f i).1 < (f j).1) :
    List.Pairwise (fun a b : ℚ × ℚ => a.1 < b.1) ((List.range n).map f) :=
  List.pairwise_map.mpr ((List.pairwise_lt_range n).imp (fun h => hf _ _ h))

lemma pairwise_janPtsProb :
    List.Pairwise (fun a b : ℚ × ℚ => a.1 < b.1) janPtsProb := by
  unfold janPtsProb
  exact pairwise_fst_lt_rangeMap (fun i j h => by
    show (10 + (i : ℚ) / 10) < 10 + (j : ℚ) / 10
    have hij : (i : ℚ) < j := by exact_mod_cast h
    linarith)

lemma pairwise_janPtsFlow :
    List.Pairwise (fun a b : ℚ × ℚ => a.1 < b.1) janPtsFlow := by
  unfold janPtsFlow
  exact pairwise_fst_lt_rangeMap (fun i j h => by
    show (i : ℚ) / 2 < (j : ℚ) / 2
    have hij : (i : ℚ) < j := by exact_mod_cast h
    linarith)

lemma pairwise_febPtsFlow :
    List.Pairwise (fun a b : ℚ × ℚ => a.1 < b.1) febPtsFlow := by
  unfold febPtsFlow
  exact pairwise_fst_lt_rangeMap (fun i j h => by
    show (i : ℚ) / 2 < (j : ℚ) / 2
    have hij : (i : ℚ) < j := by exact_mod_cast h
    linarith)

unseal Rat.add Rat.mul Rat.inv Rat.sub Rat.ofScientific in
/-- The January flow-to-probability interpolator of `fdc_mapping` at
`simMultiYear` in closed form. -/
lemma mi_jan_prob : make_interpolator janVals pGrid "nearest" none =
    Except.ok (Interp.nearestN janPtsProb) := by
  have hz : janVals.zip pGrid = janPtsProb.reverse := by decide
  simp only [make_interpolator, hz, insertionSort_reverse_eq pairwise_janPtsProb]
  decide

unseal Rat.add Rat.mul Rat.inv Rat.sub Rat.ofScientific in
/-- The January probability-to-flow interpolator in closed form. -/
lemma mi_jan_flow : make_interpolator pGrid janVals "nearest" none =
    Except.ok (Interp.nearestN janPtsFlow) := by
  have hz : pGrid.zip janVals = janPtsFlow.reverse := by decide
  simp only [make_interpolator, hz, insertionSort_reverse_eq pairwise_janPtsFlow]
  decide

unseal Rat.add Rat.mul Rat.inv Rat.sub Rat.ofScientific in
/-- The February flow-to-probability interpolator in closed form (the
constant-abscissa anchors are already sorted, so the stable sort keeps
their order). -/
lemma mi_feb_prob : make_interpolator febVals pGrid "nearest" none =
    Except.ok (Interp.nearestN (febVals.zip pGrid)) := by decide

unseal Rat.add Rat.mul Rat.inv Rat.sub Rat.ofScientific in
/-- The February probability-to-flow interpolator in closed form. -/
lemma mi_feb_flow : make_interpolator pGrid febVals "nearest" none =
    Except.ok (Interp.nearestN febPtsFlow) := by
  have hz : pGrid.zip febVals = febPtsFlow.reverse := by decide
  simp only [make_interpolator, hz, insertionSort_reverse_eq pairwise_febPtsFlow]
  decide

unseal Rat.add Rat.mul Rat.inv Rat.sub Rat.ofScientific in
/-- The January iteration of the `fdc_mapping` loop at `simMultiYear`: both
January rows are mapped onto themselves (the FDCs at A and B coincide). -/
lemma fdc_month_jan : fdc_month simMultiYear simMultiYear 1 =
    Except.ok ([⟨2000, 1, 1⟩, ⟨2001, 1, 1⟩], [10, 30]) := by
  have hjan : calc_fdc (seriesValues (monthFilter simMultiYear 1)) 201 "Q" =
      ⟨pGrid, "Q", janVals⟩ := by decide
  simp only [fdc_month, hjan]
  rw [mi_jan_prob, mi_jan_flow]
  dsimp only
  decide

unseal Rat.add Rat.mul Rat.inv Rat.sub Rat.ofScientific in
/-- The February iteration of the `fdc_mapping` loop at `simMultiYear`. -/
lemma fdc_month_feb : fdc_month simMultiYear simMultiYear 2 =
    Except.ok ([⟨2000, 2, 1⟩], [20]) := by
  have hfeb : calc_fdc (seriesValues (monthFilter simMultiYear 2)) 201 "Q" =
      ⟨pGrid, "Q", febVals⟩ := by decide
  simp only [fdc_month, hfeb]
  rw [mi_feb_prob, mi_feb_flow]
  dsimp only
  decide

unseal Rat.add Rat.mul Rat.inv Rat.sub Rat.ofScientific in
/-- C2 (code bug): `fdc_mapping` fills the `q_sim` column positionally from
the chronological input while the frame's index is in month-grouped order.
At the failing input the output row for 2000-02-01 carries `q_sim = 30`
(the 2001-01-01 input value) although the input's value at 2000-02-01
is 20 — the returned index is the sorted input index, but the
original-simulated-flow column is misaligned with its timestamps. -/
theorem fdc_mapping_positional_qsim :
    fdc_mapping simMultiYear simMultiYear = Except.ok
      [⟨⟨2000, 1, 1⟩, 10, 10, none⟩, ⟨⟨2000, 2, 1⟩, 20, 30, none⟩,
        ⟨⟨2001, 1, 1⟩, 30, 20, none⟩] ∧
    ((⟨2000, 2, 1⟩ : Date), (20 : ℚ)) ∈ simMultiYear ∧
    ¬((30 : ℚ) = 20) := by
  refine ⟨?_, by decide, by decide⟩
  have hmonths : sortedUniqueMonths simMultiYear = [1, 2] := by decide
  have hloop : fdc_mapping_loop simMultiYear simMultiYear [1, 2] =
      Except.ok ([⟨2000, 1, 1⟩, ⟨2001, 1, 1⟩, ⟨2000, 2, 1⟩], [10, 30, 20]) := by
    simp only [fdc_mapping_loop, fdc_month_jan, fdc_month_feb]
    decide
  simp only [fdc_mapping, hmonths, hloop]
  decide

/-- C7: `map_saber` never lets an exception reach its caller.  A missing
assigned gauge id yields no result before any loading; a failure in any of
the loading, correction or saving steps yields no result; and when every
step succeeds the corrected frame is returned.  The file-system and dataset
effects are abstracted as `Except`-valued oracles. -/
theorem map_saber_isolates_failures (rlog rsqrt : ℚ → ℚ) (mid asgn_mid : String)
    (asgn_gid : Option String) (loadObs loadSim : String → Except String Series)
    (save : List CRow → Except String Unit) :
    (asgn_gid = none →
      map_saber rlog rsqrt mid asgn_mid asgn_gid loadObs loadSim save = none) ∧
    (∀ g e, asgn_gid = some g → loadObs g = Except.error e →
      map_saber rlog rsqrt mid asgn_mid asgn_gid loadObs loadSim save = none) ∧
    (∀ g obs_df e, asgn_gid = some g → loadObs g = Except.ok obs_df →
      loadSim mid = Except.error e →
      map_saber rlog rsqrt mid asgn_mid asgn_gid loadObs loadSim save = none) ∧
    (∀ g obs_df sim_a, asgn_gid = some g → loadObs g = Except.ok obs_df →
      loadSim mid = Except.ok sim_a → asgn_mid = mid →
      ((∀ e, fdc_mapping sim_a obs_df = Except.error e →
        map_saber rlog rsqrt mid asgn_mid asgn_gid loadObs loadSim save = none) ∧
      (∀ df, fdc_mapping sim_a obs_df = Except.ok df →
        ((∀ e, save df = Except.error e →
          map_saber rlog rsqrt mid asgn_mid asgn_gid loadObs loadSim save = none) ∧
        (save df = Except.ok () →
          map_saber rlog rsqrt mid asgn_mid asgn_gid loadObs loadSim save = some df))))) ∧
    (∀ g obs_df sim_a, asgn_gid = some g → loadObs g = Except.ok obs_df →
      loadSim mid = Except.ok sim_a → ¬(asgn_mid = mid) →
      ((∀ e, loadSim asgn_mid = Except.error e →
        map_saber rlog rsqrt mid asgn_mid asgn_gid loadObs loadSim save = none) ∧
      (∀ sim_b, loadSim asgn_mid = Except.ok sim_b →
        ((∀ e, sfdc_mapping rlog rsqrt sim_b obs_df (some sim_a) true mapSaberOpts =
            Except.error e →
          map_saber rlog rsqrt mid asgn_mid asgn_gid loadObs loadSim save = none) ∧
        (∀ df, sfdc_mapping rlog rsqrt sim_b obs_df (some sim_a) true mapSaberOpts =
            Except.ok df →
          ((∀ e, save df = Except.error e →
            map_saber rlog rsqrt mid asgn_mid asgn_gid loadObs loadSim save = none) ∧
          (save df = Except.ok () →
            map_saber rlog rsqrt mid asgn_mid asgn_gid loadObs loadSim save =
              some df))))))) := by
  refine ⟨?_, ?_, ?_, ?_, ?_⟩
  · intro h
    rw [h]
    rfl
  · intro g e hg he
    simp [map_saber, hg, he]
  · intro g obs_df e hg hobs hsim
    simp [map_saber, hg, hobs, hsim]
  · intro g obs_df sim_a hg hobs hsim heq
    subst heq
    refine ⟨?_, ?_⟩
    · intro e hfdc
      simp [map_saber, hg, hobs, hsim, hfdc]
    · intro df hfdc
      refine ⟨?_, ?_⟩
      · intro e hsave
        simp [map_saber, hg, hobs, hsim, hfdc, hsave]
      · intro hsave
        simp [map_saber, hg, hobs, hsim, hfdc, hsave]
  · intro g obs_df sim_a hg hobs hsim hne
    refine ⟨?_, ?_⟩
    · intro e hsimb
      simp [map_saber, hg, hobs, hsim, hne, hsimb]
    · intro sim_b hsimb
      refine ⟨?_, ?_⟩
      · intro e hsfdc
        simp [map_saber, hg, hobs, hsim, hne, hsimb, hsfdc]
      · intro df hsfdc
        refine ⟨?_, ?_⟩
        · intro e hsave
          simp [map_saber, hg, hobs, hsim, hne, hsimb, hsfdc, hsave]
        · intro hsave
          simp [map_saber, hg, hobs, hsim, hne, hsimb, hsfdc, hsave]

/-- Witness for `map_saber_isolates_failures`: a record with no assigned
gauge id produces no result. -/
theorem map_saber_isolates_failures_witness :
    map_saber rzero rzero "101" "101" none (fun _ => Except.error "no gauge file")
      (fun _ => Except.error "no dataset") (fun _ => Except.ok ()) = none :=
  (map_saber_isolates_failures rzero rzero "101" "101" none
    (fun _ => Except.error "no gauge file") (fun _ => Except.error "no dataset")
    (fun _ => Except.ok ())).1 rfl
